import Mathlib

/-!
Verification development for the repository `davinci-resolve`
(single source file `src/Utility/main.py`, the script
"Auto-Add Additive Dissolve").

The script drives the DaVinci Resolve host through its scripting API.
We embed it shallowly: the host's answers are collected in an
environment `Env`, and the script's observable effect is modelled as
the list of host calls and console prints it performs (`Event`),
together with an `Outcome` recording whether the run returned normally
or died with an uncaught Python exception.

Reads from the host (GetCurrentProject, GetSetting, GetTrackCount,
GetItemListInTrack, GetClipProperty, GetStart) are modelled as fields
of `Env`; writes and UI actions (print, SetSetting,
ClearClipSelections, SetClipEnabled, Select, KeyPress, KeyReleaseAll,
time.sleep) are the events of the trace, in program order.
-/

namespace DVR

/-- A timeline item handle.  `isStill` is the host's answer to
`GetClipProperty("IsStill")` (`none` models an absent property),
`start` is `GetStart()`, and `id` identifies the handle in events. -/
structure Clip where
  id : Nat
  isStill : Option String
  start : Int
deriving DecidableEq

/-- Observable effects of the script: console prints, host API writes,
UI keystrokes and sleeps, in program order. -/
inductive Event where
  | print (msg : String)
  | setSetting (key value : String)
  | clearClipSelections
  | setClipEnabled (clip : Nat) (enabled : Bool)
  | select (clip : Nat)
  | keyPress (key : String)
  | keyReleaseAll
  | sleep (seconds : ℚ)
deriving DecidableEq

/-- How a run ends: normal return, or an uncaught Python `NameError`
on an unbound global name. -/
inductive Outcome where
  | ok
  | nameError (n : String)
deriving DecidableEq

/-- The host state a run observes.  `hostBindsBmd` records whether the
embedding environment pre-binds the global name `bmd` (Resolve's
script host injects it; a plain `python3` run does not — the file
itself never binds it). -/
structure Env where
  projectOpen : Bool
  timelineOpen : Bool
  standardVideoTransition : String
  setSettingOk : Bool
  hostBindsBmd : Bool
  trackCount : Nat
  tracks : Nat → List Clip
  platform : String

/-- Source line 62: `TRANSITION_FRAMES = 24`. -/
def TRANSITION_FRAMES : Nat := 24

/-- Source line 63: `TRANSITION_NAME = "Additive Dissolve"`. -/
def TRANSITION_NAME : String := "Additive Dissolve"

/-- Source line 64: `DEFAULT_UI_TIMEOUT = 0.15` seconds.  The rational
3/20 = 0.15, given as a raw numerator/denominator pair so that the
kernel can evaluate equality of events. -/
def DEFAULT_UI_TIMEOUT : ℚ := ⟨3, 20, by decide, by decide⟩

/-- Python's `s.startswith(p)`: `p` is a character-prefix of `s`. -/
def strStartsWith (s p : String) : Bool := p.data.isPrefixOf s.data

/-- Source lines 67-73, `ui_keystroke(ui, *keys)`: press each key in
order, release all keys, then sleep `DEFAULT_UI_TIMEOUT` seconds. -/
def ui_keystroke (keys : List String) : List Event :=
  keys.map Event.keyPress ++ [Event.keyReleaseAll, Event.sleep DEFAULT_UI_TIMEOUT]

/-- Source line 130: `ui_keystroke(ui, "Ctrl", "T") if
sys.platform.startswith("win") else ui_keystroke(ui, "Cmd", "T")`. -/
def keystrokeStep (platform : String) : List Event :=
  if strStartsWith platform "win" then ui_keystroke ["Ctrl", "T"]
  else ui_keystroke ["Cmd", "T"]

/-- Source lines 120-131, the body of the pair loop: deselect all,
enable and select both clips, then ask for the default transition. -/
def pairEvents (platform : String) (p : Clip × Clip) : List Event :=
  Event.clearClipSelections ::
  Event.setClipEnabled p.1.id true ::
  Event.setClipEnabled p.2.id true ::
  Event.select p.1.id ::
  Event.select p.2.id ::
  keystrokeStep platform

/-- Source line 113: keep only items with
`GetClipProperty("IsStill") == "True"`. -/
def stillsOf (items : List Clip) : List Clip :=
  items.filter fun it => it.isStill == some "True"

/-- The comparison key of source line 118: order clips by `GetStart()`. -/
def startLE (a b : Clip) : Prop := a.start ≤ b.start

instance : DecidableRel startLE :=
  fun a b => inferInstanceAs (Decidable (a.start ≤ b.start))

instance : IsTotal Clip startLE := ⟨fun a b => Int.le_total a.start b.start⟩

instance : IsTrans Clip startLE := ⟨fun _ _ _ h1 h2 => le_trans h1 h2⟩

/-- Source line 118: `stills.sort(key=lambda c: c.GetStart())`,
modelled by insertion sort on `startLE`: a permutation of the input,
nondecreasing in start time, agreeing with Python's sort except
possibly in the order of clips sharing a start time (no claim observes
that order). -/
def sortByStart (l : List Clip) : List Clip := List.insertionSort startLE l

/-- Source line 120: `zip(stills, stills[1:])`, the adjacent pairs. -/
def adjPairs (l : List Clip) : List (Clip × Clip) := l.zip l.tail

/-- Source lines 111-131, one iteration of the track loop: filter to
stills, skip the track when fewer than two remain, otherwise sort and
run the pair loop. -/
def trackEvents (platform : String) (items : List Clip) : List Event :=
  if (stillsOf items).length < 2 then []
  else (adjPairs (sortByStart (stillsOf items))).flatMap (pairEvents platform)

/-- How many times `transitions_added` is incremented on one track. -/
def trackPairCount (items : List Clip) : Nat :=
  if (stillsOf items).length < 2 then 0
  else (adjPairs (sortByStart (stillsOf items))).length

/-- Source line 110: `range(1, video_tracks + 1)`. -/
def trackIdxs (n : Nat) : List Nat := List.range' 1 n

/-- The final value of the `transitions_added` counter. -/
def totalTransitions (env : Env) : Nat :=
  ((trackIdxs env.trackCount).map fun i => trackPairCount (env.tracks i)).sum

/-- Source line 80. -/
def msgNoProject : String := "✘ Open a project first – aborting."

/-- Source line 85. -/
def msgNoTimeline : String := "✘ Open a timeline first – aborting."

/-- Source line 92. -/
def msgSetOk : String :=
  "✓ Set ‘" ++ TRANSITION_NAME ++ "’ as default video transition."

/-- Source line 94; `current` is the value `GetSetting` still reports
after the rejected write. -/
def msgSetFail (current : String) : String :=
  "⚠ Could not set default transition – continuing anyway (current default: "
    ++ current ++ ")."

/-- Source line 96. -/
def msgAlready : String :=
  "• ‘" ++ TRANSITION_NAME ++ "’ is already the default transition."

/-- Source line 104. -/
def msgNoTracks : String := "✘ Timeline has no video tracks – nothing to do."

/-- Source line 136; in the script `clipsSelected` is always twice
`transitionsAdded` and is floor-divided by 2 for the report. -/
def msgSummary (transitionsAdded clipsSelected : Nat) : String :=
  "✓ Added " ++ toString transitionsAdded ++ " additive dissolves between "
    ++ toString (clipsSelected / 2) ++ " pairs of stills."

/-- Source line 138. -/
def msgNoneAdded : String :=
  "⚠ No transitions were added. This usually means you are on the free edition where UIManager is disabled.\n   • Set ‘Additive Dissolve’ as the default transition (already done).\n   • Select all images on the timeline.\n   • Press Ctrl/Cmd T to apply the dissolves manually."

/-- Source lines 89-96, step 1: if the current
`standardVideoTransition` differs from `TRANSITION_NAME`, write it and
report success or failure; otherwise report that it is already set. -/
def settingsEvents (env : Env) : List Event :=
  if env.standardVideoTransition ≠ TRANSITION_NAME then
    Event.setSetting "standardVideoTransition" TRANSITION_NAME ::
      (if env.setSettingOk then [Event.print msgSetOk]
       else [Event.print (msgSetFail env.standardVideoTransition)])
  else
    [Event.print msgAlready]

/-- Source lines 75-138, `main()`.  The guards of lines 79-86 return
early; line 100 evaluates the global `bmd`, which the file never
binds, so when the host did not inject it the run dies there with a
`NameError`; line 103 returns early when there are no video tracks;
otherwise the track loop runs, the selection is cleared (line 133) and
one summary line is printed (lines 135-138). -/
def main (env : Env) : List Event × Outcome :=
  if env.projectOpen = false then
    ([Event.print msgNoProject], Outcome.ok)
  else if env.timelineOpen = false then
    ([Event.print msgNoTimeline], Outcome.ok)
  else if env.hostBindsBmd = false then
    (settingsEvents env, Outcome.nameError "bmd")
  else if env.trackCount = 0 then
    (settingsEvents env ++ [Event.print msgNoTracks], Outcome.ok)
  else
    (settingsEvents env
      ++ ((trackIdxs env.trackCount).flatMap fun i =>
            trackEvents env.platform (env.tracks i))
      ++ [Event.clearClipSelections]
      ++ [Event.print (if totalTransitions env = 0 then msgNoneAdded
            else msgSummary (totalTransitions env) (2 * totalTransitions env))],
     Outcome.ok)

/-! ### Trace observations

Helper functions that read properties off a trace; the claim theorems
are stated in terms of these. -/

/-- Does the event ask the host to release all keys? -/
def isRelease : Event → Bool
  | Event.keyReleaseAll => true
  | _ => false

/-- Number of keyboard-shortcut emissions in a trace (each
`ui_keystroke` call releases the keys exactly once). -/
def countReleases (tr : List Event) : Nat := tr.countP isRelease

/-- Does the event write a project setting? -/
def isSetSettingEv : Event → Bool
  | Event.setSetting _ _ => true
  | _ => false

/-- Does the event select a clip or touch the keyboard? -/
def isSelOrKey : Event → Bool
  | Event.select _ => true
  | Event.keyPress _ => true
  | Event.keyReleaseAll => true
  | _ => false

/-- Does the event write the enabled flag of a clip? -/
def isClipEnableEv : Event → Bool
  | Event.setClipEnabled _ _ => true
  | _ => false

/-- Does the event act on the timeline selection? -/
def isSelOp : Event → Bool
  | Event.clearClipSelections => true
  | Event.select _ => true
  | _ => false

/-- The keys pressed over a whole trace, in order. -/
def keysPressed (tr : List Event) : List String :=
  tr.filterMap fun e => match e with
    | Event.keyPress k => some k
    | _ => none

/-- Scans a trace carrying the set `s` of clips whose enabled flag has
been written to `True` so far, and checks that every `Select` hits a
clip already enabled. -/
def enabledThenSelect : List Nat → List Event → Bool
  | _, [] => true
  | s, Event.setClipEnabled x true :: r => enabledThenSelect (x :: s) r
  | s, Event.select x :: r => s.contains x && enabledThenSelect s r
  | s, _ :: r => enabledThenSelect s r

/-- The timeline selection (a list of clip ids, in selection order)
left after running a trace from selection `s`. -/
def selAfter : List Nat → List Event → List Nat
  | s, [] => s
  | _, Event.clearClipSelections :: r => selAfter [] r
  | s, Event.select x :: r => selAfter (s ++ [x]) r
  | s, _ :: r => selAfter s r

/-- Replays a trace against an expected list `ps` of clip pairs: at
each keyboard-shortcut emission the current timeline selection must be
exactly the two clips of the next expected pair, and at the end of the
trace every expected pair must have been consumed. -/
def selCheck : List Nat → List (Nat × Nat) → List Event → Bool
  | _, ps, [] => ps.isEmpty
  | _, ps, Event.clearClipSelections :: r => selCheck [] ps r
  | s, ps, Event.select x :: r => selCheck (s ++ [x]) ps r
  | _, [], Event.keyReleaseAll :: _ => false
  | s, p :: t, Event.keyReleaseAll :: r => (s == [p.1, p.2]) && selCheck s t r
  | s, ps, _ :: r => selCheck s ps r

/-- The id pairs the pair loop of one track walks over. -/
def trackPairIds (items : List Clip) : List (Nat × Nat) :=
  if (stillsOf items).length < 2 then []
  else (adjPairs (sortByStart (stillsOf items))).map fun p => (p.1.id, p.2.id)

/-- The id pairs the whole run walks over, track by track. -/
def pairsOf (env : Env) : List (Nat × Nat) :=
  (trackIdxs env.trackCount).flatMap fun i => trackPairIds (env.tracks i)

/-! ### Python name resolution

`src/Utility/main.py` resolves a global name against the module
namespace and then the builtins.  These lists are read off the file:
its import statements (lines 52-56), assignments (lines 62-64) and
function definitions (lines 67, 75). -/

/-- Names bound at module level by the file: `import sys`,
`import time`, `import DaVinciResolveScript as dvr`, the three
constants, and the two `def`s. -/
def moduleBindings : List String :=
  ["sys", "time", "dvr", "TRANSITION_FRAMES", "TRANSITION_NAME",
   "DEFAULT_UI_TIMEOUT", "ui_keystroke", "main"]

/-- Python builtins the file refers to. -/
def usedBuiltins : List String := ["print", "range", "len", "zip", "ImportError"]

/-- The global (non-local) names the body of `main` reads, in
particular `bmd` on line 100 (`disp = bmd.UIDispatcher(ui)`). -/
def mainGlobalUses : List String :=
  ["dvr", "print", "TRANSITION_NAME", "bmd", "sys", "ui_keystroke",
   "range", "len", "zip"]

/-- Whether a global name used by the file resolves without the host
injecting anything. -/
def resolvesGlobal (n : String) : Bool :=
  moduleBindings.contains n || usedBuiltins.contains n

/-! ### Concrete environments used by witnesses and counterexamples -/

/-- A still starting at frame 0. -/
def cA : Clip := ⟨1, some "True", 0⟩

/-- A still starting at frame 100. -/
def cB : Clip := ⟨2, some "True", 100⟩

/-- A motion clip (marker `"False"`). -/
def cM : Clip := ⟨3, some "False", 50⟩

/-- A clip with no `IsStill` property at all. -/
def cN : Clip := ⟨4, none, 75⟩

/-- A third still, starting between `cA` and `cB`. -/
def cC : Clip := ⟨5, some "True", 40⟩

/-- A macOS run: project and timeline open, host-injected `bmd`
bound, the default transition already set, one video track holding two
stills (listed out of start order) plus a motion clip and an unmarked
clip. -/
def env0 : Env :=
  { projectOpen := true
    timelineOpen := true
    standardVideoTransition := TRANSITION_NAME
    setSettingOk := true
    hostBindsBmd := true
    trackCount := 1
    tracks := fun _ => [cB, cM, cA, cN]
    platform := "darwin" }

/-- A Windows run with three stills on one track and a rejected
settings write. -/
def env1 : Env :=
  { projectOpen := true
    timelineOpen := true
    standardVideoTransition := "Cross Dissolve"
    setSettingOk := false
    hostBindsBmd := true
    trackCount := 1
    tracks := fun _ => [cB, cC, cA]
    platform := "win32" }

/-- A run executed by plain `python3` outside Resolve: nothing is
injected, so the name `bmd` resolves exactly when the file itself
binds it. -/
def standaloneEnv : Env :=
  { projectOpen := true
    timelineOpen := true
    standardVideoTransition := TRANSITION_NAME
    setSettingOk := true
    hostBindsBmd := resolvesGlobal "bmd"
    trackCount := 1
    tracks := fun _ => [cB, cA]
    platform := "win32" }

/-! ### Structural lemmas about the blocks of the trace -/

lemma settingsEvents_cases (env : Env) :
    settingsEvents env = [Event.print msgAlready] ∨
    settingsEvents env =
      [Event.setSetting "standardVideoTransition" TRANSITION_NAME,
       Event.print msgSetOk] ∨
    settingsEvents env =
      [Event.setSetting "standardVideoTransition" TRANSITION_NAME,
       Event.print (msgSetFail env.standardVideoTransition)] := by
  unfold settingsEvents
  by_cases h : env.standardVideoTransition = TRANSITION_NAME
  · simp [h]
  · rcases Bool.eq_false_or_eq_true env.setSettingOk with h2 | h2 <;> simp [h, h2]

lemma adjPairs_eq_nil {l : List Clip} (h : l.length < 2) : adjPairs l = [] := by
  match l with
  | [] => rfl
  | [_] => rfl
  | _ :: _ :: _ => simp at h; omega

lemma length_sortByStart (l : List Clip) : (sortByStart l).length = l.length :=
  List.length_insertionSort _ _

lemma length_adjPairs (l : List Clip) : (adjPairs l).length = l.length - 1 := by
  rw [adjPairs, List.length_zip, List.length_tail]
  exact Nat.min_eq_right (Nat.sub_le _ _)

lemma trackEvents_eq (pw : String) (items : List Clip) :
    trackEvents pw items
      = (adjPairs (sortByStart (stillsOf items))).flatMap (pairEvents pw) := by
  unfold trackEvents
  by_cases h : (stillsOf items).length < 2
  · rw [if_pos h, adjPairs_eq_nil (by rw [length_sortByStart]; exact h)]
    rfl
  · rw [if_neg h]

lemma mem_pairEvents {pw : String} {p : Clip × Clip} {e : Event}
    (he : e ∈ pairEvents pw p) :
    e = Event.clearClipSelections ∨
    e = Event.setClipEnabled p.1.id true ∨ e = Event.setClipEnabled p.2.id true ∨
    e = Event.select p.1.id ∨ e = Event.select p.2.id ∨
    e = Event.keyPress "Ctrl" ∨ e = Event.keyPress "Cmd" ∨ e = Event.keyPress "T" ∨
    e = Event.keyReleaseAll ∨ e = Event.sleep DEFAULT_UI_TIMEOUT := by
  rcases Bool.eq_false_or_eq_true (strStartsWith pw "win") with h | h <;>
    simp [pairEvents, keystrokeStep, ui_keystroke, h] at he <;> tauto

lemma mem_trackEvents {pw : String} {items : List Clip} {e : Event}
    (he : e ∈ trackEvents pw items) :
    ∃ p ∈ adjPairs (sortByStart (stillsOf items)), e ∈ pairEvents pw p := by
  rw [trackEvents_eq] at he
  exact List.mem_flatMap.mp he

lemma countP_settingsEvents_eq_zero (env : Env) (p : Event → Bool)
    (h1 : ∀ m, p (Event.print m) = false)
    (h2 : p (Event.setSetting "standardVideoTransition" TRANSITION_NAME) = false) :
    (settingsEvents env).countP p = 0 := by
  rcases settingsEvents_cases env with h | h | h <;>
    simp [h, List.countP_cons, h1, h2]

/-! ### Counting keystroke emissions and pressed keys -/

lemma countReleases_pairEvents (pw : String) (p : Clip × Clip) :
    countReleases (pairEvents pw p) = 1 := by
  rcases Bool.eq_false_or_eq_true (strStartsWith pw "win") with h | h <;>
    simp [countReleases, pairEvents, keystrokeStep, ui_keystroke, h,
      List.countP_cons, isRelease]

lemma countReleases_flatMap_pairs (pw : String) :
    ∀ l : List (Clip × Clip), countReleases (l.flatMap (pairEvents pw)) = l.length := by
  intro l
  induction l with
  | nil => rfl
  | cons p t ih =>
    rw [List.flatMap_cons, countReleases, List.countP_append]
    rw [countReleases] at ih
    rw [ih]
    have := countReleases_pairEvents pw p
    rw [countReleases] at this
    rw [this, List.length_cons]
    omega

lemma countReleases_trackEvents (pw : String) (items : List Clip) :
    countReleases (trackEvents pw items) = trackPairCount items := by
  rw [trackEvents_eq, countReleases_flatMap_pairs, trackPairCount]
  by_cases h : (stillsOf items).length < 2
  · rw [if_pos h, adjPairs_eq_nil (by rw [length_sortByStart]; exact h)]
    rfl
  · rw [if_neg h]

lemma countReleases_body (pw : String) (tks : Nat → List Clip) :
    ∀ is : List Nat,
      countReleases (is.flatMap fun i => trackEvents pw (tks i))
        = ((is.map fun i => trackPairCount (tks i)).sum) := by
  intro is
  induction is with
  | nil => rfl
  | cons i t ih =>
    rw [List.flatMap_cons, countReleases, List.countP_append, List.map_cons,
      List.sum_cons]
    rw [countReleases] at ih
    rw [ih]
    have := countReleases_trackEvents pw (tks i)
    rw [countReleases] at this
    rw [this]

lemma keysPressed_settings (env : Env) : keysPressed (settingsEvents env) = [] := by
  rcases settingsEvents_cases env with h | h | h <;> simp [keysPressed, h]

lemma keysPressed_pairEvents (pw : String) (p : Clip × Clip) :
    keysPressed (pairEvents pw p)
      = (if strStartsWith pw "win" then ["Ctrl", "T"] else ["Cmd", "T"]) := by
  rcases Bool.eq_false_or_eq_true (strStartsWith pw "win") with h | h <;>
    simp [keysPressed, pairEvents, keystrokeStep, ui_keystroke, h]

lemma keysPressed_flatMap_pairs (pw : String) :
    ∀ l : List (Clip × Clip),
      keysPressed (l.flatMap (pairEvents pw))
        = (List.replicate l.length
            (if strStartsWith pw "win" then ["Ctrl", "T"] else ["Cmd", "T"])).flatten := by
  intro l
  induction l with
  | nil => rfl
  | cons p t ih =>
    rw [List.flatMap_cons, keysPressed, List.filterMap_append, List.length_cons,
      List.replicate_succ, List.flatten_cons]
    rw [keysPressed] at ih
    rw [ih]
    have := keysPressed_pairEvents pw p
    rw [keysPressed] at this
    rw [this]

lemma keysPressed_trackEvents (pw : String) (items : List Clip) :
    keysPressed (trackEvents pw items)
      = (List.replicate (trackPairCount items)
          (if strStartsWith pw "win" then ["Ctrl", "T"] else ["Cmd", "T"])).flatten := by
  rw [trackEvents_eq, keysPressed_flatMap_pairs, trackPairCount]
  by_cases h : (stillsOf items).length < 2
  · rw [if_pos h, adjPairs_eq_nil (by rw [length_sortByStart]; exact h)]
    rfl
  · rw [if_neg h]

lemma keysPressed_body (pw : String) (tks : Nat → List Clip) :
    ∀ is : List Nat,
      keysPressed (is.flatMap fun i => trackEvents pw (tks i))
        = (List.replicate ((is.map fun i => trackPairCount (tks i)).sum)
            (if strStartsWith pw "win" then ["Ctrl", "T"] else ["Cmd", "T"])).flatten := by
  intro is
  induction is with
  | nil => rfl
  | cons i t ih =>
    rw [List.flatMap_cons, keysPressed, List.filterMap_append, List.map_cons,
      List.sum_cons, List.replicate_add, List.flatten_append]
    rw [keysPressed] at ih
    rw [ih]
    have := keysPressed_trackEvents pw (tks i)
    rw [keysPressed] at this
    rw [this]

/-! ### The five branches of `main` -/

lemma main_noProject {env : Env} (hp : env.projectOpen = false) :
    main env = ([Event.print msgNoProject], Outcome.ok) := by
  simp [main, hp]

lemma main_noTimeline {env : Env} (hp : env.projectOpen = true)
    (ht : env.timelineOpen = false) :
    main env = ([Event.print msgNoTimeline], Outcome.ok) := by
  simp [main, hp, ht]

lemma main_noBmd {env : Env} (hp : env.projectOpen = true)
    (ht : env.timelineOpen = true) (hb : env.hostBindsBmd = false) :
    main env = (settingsEvents env, Outcome.nameError "bmd") := by
  simp [main, hp, ht, hb]

lemma main_noTracks {env : Env} (hp : env.projectOpen = true)
    (ht : env.timelineOpen = true) (hb : env.hostBindsBmd = true)
    (hn : env.trackCount = 0) :
    main env = (settingsEvents env ++ [Event.print msgNoTracks], Outcome.ok) := by
  simp [main, hp, ht, hb, hn]

lemma main_pos {env : Env} (hp : env.projectOpen = true)
    (ht : env.timelineOpen = true) (hb : env.hostBindsBmd = true)
    (hn : env.trackCount ≠ 0) :
    main env =
      (settingsEvents env
        ++ ((trackIdxs env.trackCount).flatMap fun i =>
              trackEvents env.platform (env.tracks i))
        ++ [Event.clearClipSelections]
        ++ [Event.print (if totalTransitions env = 0 then msgNoneAdded
              else msgSummary (totalTransitions env) (2 * totalTransitions env))],
       Outcome.ok) := by
  simp [main, hp, ht, hb, hn]

/-! ### Every key release is immediately followed by the fixed sleep -/

/-- Successor relation used to show the sleep follows each release. -/
def relW (a b : Event) : Prop :=
  a = Event.keyReleaseAll → b = Event.sleep DEFAULT_UI_TIMEOUT

/-- A trace in which every `keyReleaseAll` is immediately followed by
the fixed sleep, and which does not end on a `keyReleaseAll`. -/
def QW (l : List Event) : Prop :=
  List.Chain' relW l ∧ l.getLast? ≠ some Event.keyReleaseAll

lemma QW_nil : QW [] := ⟨List.chain'_nil, by simp⟩

lemma QW_append {l1 l2 : List Event} (h1 : QW l1) (h2 : QW l2) : QW (l1 ++ l2) := by
  constructor
  · rw [List.chain'_append]
    refine ⟨h1.1, h2.1, ?_⟩
    intro x hx y _ hxr
    rw [hxr] at hx
    exact absurd hx h1.2
  · rw [List.getLast?_append]
    cases hl : l2.getLast? with
    | none => simpa [hl] using h1.2
    | some z =>
      have := h2.2
      rw [hl] at this
      simpa [hl] using this

lemma QW_print (m : String) : QW [Event.print m] :=
  ⟨List.chain'_singleton _, by simp⟩

lemma QW_clear : QW [Event.clearClipSelections] :=
  ⟨List.chain'_singleton _, by simp⟩

lemma QW_settings (env : Env) : QW (settingsEvents env) := by
  rcases settingsEvents_cases env with h | h | h <;>
    exact h ▸ ⟨by simp [List.chain'_cons, relW], by simp⟩

lemma QW_pairEvents (pw : String) (p : Clip × Clip) : QW (pairEvents pw p) := by
  rcases Bool.eq_false_or_eq_true (strStartsWith pw "win") with h | h <;>
    exact ⟨by simp [pairEvents, keystrokeStep, ui_keystroke, h,
             List.chain'_cons, relW],
           by simp [pairEvents, keystrokeStep, ui_keystroke, h]⟩

lemma QW_flatMap_pairs (pw : String) :
    ∀ l : List (Clip × Clip), QW (l.flatMap (pairEvents pw)) := by
  intro l
  induction l with
  | nil => exact QW_nil
  | cons p t ih => exact List.flatMap_cons _ _ _ ▸ QW_append (QW_pairEvents pw p) ih

lemma QW_trackEvents (pw : String) (items : List Clip) : QW (trackEvents pw items) :=
  trackEvents_eq pw items ▸ QW_flatMap_pairs pw _

lemma QW_body (pw : String) (tks : Nat → List Clip) :
    ∀ is : List Nat, QW (is.flatMap fun i => trackEvents pw (tks i)) := by
  intro is
  induction is with
  | nil => exact QW_nil
  | cons i t ih => exact List.flatMap_cons _ _ _ ▸ QW_append (QW_trackEvents pw (tks i)) ih

lemma QW_main (env : Env) : QW (main env).fst := by
  rcases Bool.eq_false_or_eq_true env.projectOpen with hp | hp
  case inr => rw [main_noProject hp]; exact QW_print _
  rcases Bool.eq_false_or_eq_true env.timelineOpen with ht | ht
  case inr => rw [main_noTimeline hp ht]; exact QW_print _
  rcases Bool.eq_false_or_eq_true env.hostBindsBmd with hb | hb
  case inr => rw [main_noBmd hp ht hb]; exact QW_settings env
  by_cases hn : env.trackCount = 0
  · rw [main_noTracks hp ht hb hn]
    exact QW_append (QW_settings env) (QW_print _)
  · rw [main_pos hp ht hb hn]
    exact QW_append (QW_append (QW_append (QW_settings env)
      (QW_body env.platform env.tracks _)) QW_clear) (QW_print _)

lemma QW_get? {l : List Event} (hq : QW l) {i : Nat}
    (h : l.get? i = some Event.keyReleaseAll) :
    l.get? (i + 1) = some (Event.sleep DEFAULT_UI_TIMEOUT) := by
  have hi : i < l.length := by
    by_contra hge
    rw [List.get?_eq_none.mpr (Nat.le_of_not_lt hge)] at h
    cases h
  by_cases h2 : i + 1 < l.length
  · have hc := List.chain'_iff_get.mp hq.1 i (by omega)
    have hg : l.get ⟨i, hi⟩ = Event.keyReleaseAll := by
      rw [List.get?_eq_get hi] at h
      exact Option.some.inj h
    rw [List.get?_eq_get h2]
    exact congrArg some (hc hg)
  · exfalso
    apply hq.2
    have hlen : l.length - 1 = i := by omega
    rw [List.getLast?_eq_getElem?, hlen, ← List.get?_eq_getElem?]
    exact h

/-! ### Enabled-flag writes precede selections -/

/-- A block after which `enabledThenSelect` continues from some new
set of enabled clips, whatever set it started from. -/
def EtsShifts (X : List Event) : Prop :=
  ∀ s, ∃ t, ∀ r, enabledThenSelect s (X ++ r) = enabledThenSelect t r

lemma etsShifts_nil : EtsShifts [] := fun s => ⟨s, fun _ => rfl⟩

lemma etsShifts_append {X1 X2 : List Event} (h1 : EtsShifts X1)
    (h2 : EtsShifts X2) : EtsShifts (X1 ++ X2) := by
  intro s
  obtain ⟨t1, h1'⟩ := h1 s
  obtain ⟨t2, h2'⟩ := h2 t1
  exact ⟨t2, fun r => by rw [List.append_assoc, h1', h2']⟩

lemma etsShifts_settings (env : Env) : EtsShifts (settingsEvents env) := by
  intro s
  refine ⟨s, fun r => ?_⟩
  rcases settingsEvents_cases env with h | h | h <;> simp [h, enabledThenSelect]

lemma etsShifts_pairEvents (pw : String) (p : Clip × Clip) :
    EtsShifts (pairEvents pw p) := by
  intro s
  refine ⟨p.2.id :: p.1.id :: s, fun r => ?_⟩
  rcases Bool.eq_false_or_eq_true (strStartsWith pw "win") with h | h <;>
    simp [pairEvents, keystrokeStep, ui_keystroke, h, enabledThenSelect,
      List.contains]

lemma etsShifts_flatMap_pairs (pw : String) :
    ∀ l : List (Clip × Clip), EtsShifts (l.flatMap (pairEvents pw)) := by
  intro l
  induction l with
  | nil => exact etsShifts_nil
  | cons p t ih =>
    exact List.flatMap_cons _ _ _ ▸ etsShifts_append (etsShifts_pairEvents pw p) ih

lemma etsShifts_trackEvents (pw : String) (items : List Clip) :
    EtsShifts (trackEvents pw items) :=
  trackEvents_eq pw items ▸ etsShifts_flatMap_pairs pw _

lemma etsShifts_body (pw : String) (tks : Nat → List Clip) :
    ∀ is : List Nat, EtsShifts (is.flatMap fun i => trackEvents pw (tks i)) := by
  intro is
  induction is with
  | nil => exact etsShifts_nil
  | cons i t ih =>
    exact List.flatMap_cons _ _ _ ▸
      etsShifts_append (etsShifts_trackEvents pw (tks i)) ih

/-! ### Replaying the timeline selection -/

lemma selCheck_settings (env : Env) (s : List Nat) (ps : List (Nat × Nat))
    (r : List Event) :
    selCheck s ps (settingsEvents env ++ r) = selCheck s ps r := by
  rcases settingsEvents_cases env with h | h | h <;> simp [h, selCheck]

lemma selCheck_pair (pw : String) (p : Clip × Clip) (s : List Nat)
    (ps : List (Nat × Nat)) (r : List Event) :
    selCheck s ((p.1.id, p.2.id) :: ps) (pairEvents pw p ++ r)
      = selCheck [p.1.id, p.2.id] ps r := by
  rcases Bool.eq_false_or_eq_true (strStartsWith pw "win") with h | h <;>
    simp [pairEvents, keystrokeStep, ui_keystroke, h, selCheck]

/-- The selection state left by a list of pair blocks. -/
def lastStatePairs : List (Clip × Clip) → List Nat → List Nat
  | [], s => s
  | p :: t, _ => lastStatePairs t [p.1.id, p.2.id]

lemma selCheck_flatMap_pairs (pw : String) :
    ∀ (l : List (Clip × Clip)) (s : List Nat) (ps : List (Nat × Nat))
      (r : List Event),
      selCheck s ((l.map fun p => (p.1.id, p.2.id)) ++ ps)
          ((l.flatMap (pairEvents pw)) ++ r)
        = selCheck (lastStatePairs l s) ps r := by
  intro l
  induction l with
  | nil => intro s ps r; rfl
  | cons p t ih =>
    intro s ps r
    rw [List.map_cons, List.flatMap_cons, List.cons_append, List.append_assoc,
      selCheck_pair, lastStatePairs]
    exact ih _ _ _

/-- The selection state left by one track's events. -/
def trackLastState (items : List Clip) (s : List Nat) : List Nat :=
  if (stillsOf items).length < 2 then s
  else lastStatePairs (adjPairs (sortByStart (stillsOf items))) s

lemma selCheck_track (pw : String) (items : List Clip) (s : List Nat)
    (ps : List (Nat × Nat)) (r : List Event) :
    selCheck s (trackPairIds items ++ ps) (trackEvents pw items ++ r)
      = selCheck (trackLastState items s) ps r := by
  by_cases h : (stillsOf items).length < 2
  · simp [trackPairIds, trackEvents, trackLastState, h]
  · rw [trackPairIds, if_neg h, trackEvents, if_neg h, trackLastState, if_neg h]
    exact selCheck_flatMap_pairs pw _ s ps r

/-- The selection state left by the whole track loop. -/
def bodyLastState (tks : Nat → List Clip) : List Nat → List Nat → List Nat
  | [], s => s
  | i :: t, s => bodyLastState tks t (trackLastState (tks i) s)

lemma selCheck_body (pw : String) (tks : Nat → List Clip) :
    ∀ (is : List Nat) (s : List Nat) (ps : List (Nat × Nat)) (r : List Event),
      selCheck s ((is.flatMap fun i => trackPairIds (tks i)) ++ ps)
          ((is.flatMap fun i => trackEvents pw (tks i)) ++ r)
        = selCheck (bodyLastState tks is s) ps r := by
  intro is
  induction is with
  | nil => intro s ps r; rfl
  | cons i t ih =>
    intro s ps r
    rw [List.flatMap_cons, List.flatMap_cons, List.append_assoc,
      List.append_assoc, selCheck_track, bodyLastState]
    exact ih _ _ _

lemma selAfter_append (l r : List Event) (s : List Nat) :
    selAfter s (l ++ r) = selAfter (selAfter s l) r := by
  induction l generalizing s with
  | nil => rfl
  | cons e t ih => cases e <;> simp [selAfter, ih]

lemma selAfter_settings (env : Env) (s : List Nat) :
    selAfter s (settingsEvents env) = s := by
  rcases settingsEvents_cases env with h | h | h <;> simp [h, selAfter]

/-! ### Membership facts and trace splits -/

lemma not_setSetting_body (pw : String) (tks : Nat → List Clip) (is : List Nat) :
    ∀ e ∈ (is.flatMap fun i => trackEvents pw (tks i)), isSetSettingEv e = false := by
  intro e he
  rw [List.mem_flatMap] at he
  obtain ⟨i, _, hei⟩ := he
  obtain ⟨p, _, hep⟩ := mem_trackEvents hei
  rcases mem_pairEvents hep with h | h | h | h | h | h | h | h | h | h <;>
    subst h <;> rfl

lemma setClipEnabled_mem_body {pw : String} {tks : Nat → List Clip}
    {is : List Nat} {x : Nat} {b : Bool}
    (h : Event.setClipEnabled x b ∈ (is.flatMap fun i => trackEvents pw (tks i))) :
    b = true := by
  rw [List.mem_flatMap] at h
  obtain ⟨i, _, hei⟩ := h
  obtain ⟨p, _, hep⟩ := mem_trackEvents hei
  rcases mem_pairEvents hep with h | h | h | h | h | h | h | h | h | h <;> simp_all

lemma setSetting_mem_settings {env : Env} {k v : String}
    (h : Event.setSetting k v ∈ settingsEvents env) :
    k = "standardVideoTransition" ∧ v = TRANSITION_NAME ∧
      env.standardVideoTransition ≠ TRANSITION_NAME := by
  by_cases hts : env.standardVideoTransition = TRANSITION_NAME
  · simp [settingsEvents, hts] at h
  · rcases Bool.eq_false_or_eq_true env.setSettingOk with hok | hok <;>
      simp [settingsEvents, hts, hok] at h <;> exact ⟨h.1, h.2, hts⟩

lemma main_settings_prefix {env : Env} (hp : env.projectOpen = true)
    (ht : env.timelineOpen = true) :
    ∃ rest, (main env).fst = settingsEvents env ++ rest := by
  rcases Bool.eq_false_or_eq_true env.hostBindsBmd with hb | hb
  case inr => exact ⟨[], by rw [main_noBmd hp ht hb, List.append_nil]⟩
  by_cases hn : env.trackCount = 0
  · exact ⟨[Event.print msgNoTracks], by rw [main_noTracks hp ht hb hn]⟩
  · refine ⟨((trackIdxs env.trackCount).flatMap fun i =>
        trackEvents env.platform (env.tracks i)) ++ [Event.clearClipSelections]
        ++ [Event.print (if totalTransitions env = 0 then msgNoneAdded
              else msgSummary (totalTransitions env) (2 * totalTransitions env))],
      ?_⟩
    rw [main_pos hp ht hb hn]
    simp [List.append_assoc]

lemma main_split (env : Env) :
    (main env).fst = [Event.print msgNoProject] ∨
    (main env).fst = [Event.print msgNoTimeline] ∨
    ∃ rest, (main env).fst = settingsEvents env ++ rest ∧
      rest.countP isSetSettingEv = 0 := by
  rcases Bool.eq_false_or_eq_true env.projectOpen with hp | hp
  case inr => exact Or.inl (by rw [main_noProject hp])
  rcases Bool.eq_false_or_eq_true env.timelineOpen with ht | ht
  case inr => exact Or.inr (Or.inl (by rw [main_noTimeline hp ht]))
  refine Or.inr (Or.inr ?_)
  rcases Bool.eq_false_or_eq_true env.hostBindsBmd with hb | hb
  case inr => exact ⟨[], by rw [main_noBmd hp ht hb, List.append_nil], rfl⟩
  by_cases hn : env.trackCount = 0
  · exact ⟨[Event.print msgNoTracks], by rw [main_noTracks hp ht hb hn], rfl⟩
  · refine ⟨((trackIdxs env.trackCount).flatMap fun i =>
        trackEvents env.platform (env.tracks i)) ++ [Event.clearClipSelections]
        ++ [Event.print (if totalTransitions env = 0 then msgNoneAdded
              else msgSummary (totalTransitions env) (2 * totalTransitions env))],
      ?_, ?_⟩
    · rw [main_pos hp ht hb hn]
      simp [List.append_assoc]
    · rw [List.countP_append, List.countP_append,
        List.countP_eq_zero.mpr (fun e he => by
          simp [not_setSetting_body env.platform env.tracks _ e he])]
      rfl

lemma adjPairs_mem {l : List Clip} {p : Clip × Clip} (hp : p ∈ adjPairs l) :
    p.1 ∈ l ∧ p.2 ∈ l := by
  obtain ⟨a, b⟩ := p
  have h := List.of_mem_zip hp
  exact ⟨h.1, List.mem_of_mem_tail h.2⟩

lemma adjPairs_cover : ∀ {l : List Clip}, 2 ≤ l.length → ∀ {a : Clip}, a ∈ l →
    ∃ p ∈ adjPairs l, p.1 = a ∨ p.2 = a := by
  intro l
  induction l with
  | nil => intro h; simp at h
  | cons x t ih =>
    intro h2 a ha
    cases t with
    | nil => simp at h2
    | cons y t2 =>
      have hadj : adjPairs (x :: y :: t2) = (x, y) :: adjPairs (y :: t2) := rfl
      rcases List.mem_cons.mp ha with rfl | ha2
      · exact ⟨(a, y), by rw [hadj]; exact List.mem_cons_self _ _, Or.inl rfl⟩
      · cases t2 with
        | nil =>
          have hy : a = y := by simpa using ha2
          exact ⟨(x, y), by rw [hadj]; exact List.mem_cons_self _ _,
            Or.inr hy.symm⟩
        | cons z t3 =>
          obtain ⟨p, hp, hor⟩ := ih (by simp) ha2
          exact ⟨p, by rw [hadj]; exact List.mem_cons_of_mem _ hp, hor⟩

/-! ### The claim's description of the per-pair operations

Two definitions written from the specification text, to be compared
with the trace the embedded program produces.  `strictPairBlock` lists
exactly the per-pair operations claim C1 describes (select both, emit
the shortcut, sleep); `claimedPairBlock` is the amended description,
which also includes the selection clearing and the two enabled-flag
writes the code performs. -/

/-- The per-pair host operations claim C1 literally allows. -/
def strictPairBlock (platform : String) (p : Clip × Clip) : List Event :=
  Event.select p.1.id ::
  Event.select p.2.id ::
  ((if strStartsWith platform "win" then ["Ctrl", "T"] else ["Cmd", "T"]).map
      Event.keyPress
    ++ [Event.keyReleaseAll, Event.sleep DEFAULT_UI_TIMEOUT])

/-- The per-pair operations of the amended claim, written out. -/
def claimedPairBlock (platform : String) (p : Clip × Clip) : List Event :=
  Event.clearClipSelections ::
  Event.setClipEnabled p.1.id true ::
  Event.setClipEnabled p.2.id true ::
  Event.select p.1.id ::
  Event.select p.2.id ::
  ((if strStartsWith platform "win" then ["Ctrl", "T"] else ["Cmd", "T"]).map
      Event.keyPress
    ++ [Event.keyReleaseAll, Event.sleep DEFAULT_UI_TIMEOUT])

lemma pairEvents_eq_claimedPairBlock (pw : String) (p : Clip × Clip) :
    pairEvents pw p = claimedPairBlock pw p := by
  rcases Bool.eq_false_or_eq_true (strStartsWith pw "win") with h | h <;>
    simp [pairEvents, keystrokeStep, ui_keystroke, claimedPairBlock, h]

/-! ### The claims -/

/-- Claim C3: on every video track whose filtered list of stills has n
at least 2 elements, the script emits exactly n - 1 keystroke
invocations, one per adjacent pair of the stills in nondecreasing
start order (the processed list is a permutation of the stills, sorted
by `startLE`, and the events are exactly one pair block per adjacent
pair of it); a track with fewer than two stills produces no selection
and no keystroke at all. -/
theorem claim3_per_track_counts (pw : String) (items : List Clip) :
    (2 ≤ (stillsOf items).length →
      countReleases (trackEvents pw items) = (stillsOf items).length - 1 ∧
      trackEvents pw items
        = (adjPairs (sortByStart (stillsOf items))).flatMap (pairEvents pw) ∧
      (adjPairs (sortByStart (stillsOf items))).length
        = (stillsOf items).length - 1 ∧
      (sortByStart (stillsOf items)).Perm (stillsOf items) ∧
      List.Sorted startLE (sortByStart (stillsOf items))) ∧
    ((stillsOf items).length < 2 → trackEvents pw items = []) := by
  constructor
  · intro h2
    refine ⟨?_, trackEvents_eq pw items, ?_,
      List.perm_insertionSort _ _, List.sorted_insertionSort _ _⟩
    · rw [countReleases_trackEvents, trackPairCount, if_neg (by omega),
        length_adjPairs, length_sortByStart]
    · rw [length_adjPairs, length_sortByStart]
  · intro hlt
    rw [trackEvents, if_pos hlt]

/-- Witness for C3: a Windows track holding three stills out of order
emits two shortcuts over the sorted stills, and a track with a single
still produces nothing. -/
theorem claim3_per_track_counts_witness :
    (countReleases (trackEvents "win32" [cB, cC, cA])
        = (stillsOf [cB, cC, cA]).length - 1 ∧
      trackEvents "win32" [cB, cC, cA]
        = (adjPairs (sortByStart (stillsOf [cB, cC, cA]))).flatMap
            (pairEvents "win32") ∧
      (adjPairs (sortByStart (stillsOf [cB, cC, cA]))).length
        = (stillsOf [cB, cC, cA]).length - 1 ∧
      (sortByStart (stillsOf [cB, cC, cA])).Perm (stillsOf [cB, cC, cA]) ∧
      List.Sorted startLE (sortByStart (stillsOf [cB, cC, cA]))) ∧
    trackEvents "win32" [cM, cA] = [] :=
  ⟨(claim3_per_track_counts "win32" [cB, cC, cA]).1 (by decide),
   (claim3_per_track_counts "win32" [cM, cA]).2 (by decide)⟩

/-- Claim C4: over any run, `SetSetting` is invoked at most once, only
with the key `standardVideoTransition` and the value
`"Additive Dissolve"`, and only when the current value of that setting
differs from `"Additive Dissolve"`; when it already matches, no
setting is written at all. -/
theorem claim4_single_setting_write (env : Env) :
    (main env).fst.countP isSetSettingEv ≤ 1 ∧
    (∀ k v, Event.setSetting k v ∈ (main env).fst →
      k = "standardVideoTransition" ∧ v = TRANSITION_NAME ∧
      env.standardVideoTransition ≠ TRANSITION_NAME) ∧
    (env.standardVideoTransition = TRANSITION_NAME →
      (main env).fst.countP isSetSettingEv = 0) := by
  refine ⟨?_, ?_, ?_⟩
  · rcases main_split env with h | h | ⟨rest, h, hz⟩
    · rw [h]; decide
    · rw [h]; decide
    · rw [h, List.countP_append, hz]
      rcases settingsEvents_cases env with hs | hs | hs <;> simp [hs, isSetSettingEv]
  · intro k v hmem
    rcases main_split env with h | h | ⟨rest, h, hz⟩
    · rw [h] at hmem; simp at hmem
    · rw [h] at hmem; simp at hmem
    · rw [h, List.mem_append] at hmem
      rcases hmem with hmem | hmem
      · exact setSetting_mem_settings hmem
      · have hfalse := List.countP_eq_zero.mp hz _ hmem
        simp [isSetSettingEv] at hfalse
  · intro hts
    rcases main_split env with h | h | ⟨rest, h, hz⟩
    · rw [h]; decide
    · rw [h]; decide
    · rw [h, List.countP_append, hz, settingsEvents, if_neg (by simp [hts])]
      rfl

/-- Witness for C4: in a run where the setting already holds
`"Additive Dissolve"` nothing is written, and in a run that does write,
the written key and value are pinned down. -/
theorem claim4_single_setting_write_witness :
    (main env0).fst.countP isSetSettingEv = 0 ∧
    ("standardVideoTransition" = "standardVideoTransition" ∧
      "Additive Dissolve" = TRANSITION_NAME ∧
      env1.standardVideoTransition ≠ TRANSITION_NAME) :=
  ⟨(claim4_single_setting_write env0).2.2 rfl,
   (claim4_single_setting_write env1).2.1 "standardVideoTransition"
     "Additive Dissolve" (by decide)⟩

/-- Claim C8 (code bug): the file never binds the global name `bmd`
(it is neither imported nor assigned, and is no builtin), yet `main`
reads it on line 100; in an environment where the host injects
nothing — a plain standalone run — the run with an open project and
timeline dies with `NameError` on `bmd` right after the settings step,
before any selection or keystroke.  All other globals `main` reads do
resolve against the file's bindings and the builtins. -/
theorem claim8_bmd_unbound :
    "bmd" ∈ mainGlobalUses ∧
    resolvesGlobal "bmd" = false ∧
    mainGlobalUses.all (fun n => n == "bmd" || resolvesGlobal n) = true ∧
    (main standaloneEnv).snd = Outcome.nameError "bmd" ∧
    (main standaloneEnv).fst.countP isSelOrKey = 0 := by decide

/-- Claim C5: a timeline item takes part in the sorted still list
exactly when its host-reported `IsStill` property is the string
`"True"`; every `Select` the track loop emits targets such a still,
and when at least two stills are present every still of the track gets
selected. -/
theorem claim5_still_filter (pw : String) (items : List Clip) :
    (∀ it : Clip, it ∈ sortByStart (stillsOf items) ↔
      (it ∈ items ∧ it.isStill = some "True")) ∧
    (∀ x : Nat, Event.select x ∈ trackEvents pw items →
      ∃ it : Clip, it ∈ items ∧ it.isStill = some "True" ∧ it.id = x) ∧
    (2 ≤ (stillsOf items).length →
      ∀ it : Clip, it ∈ items → it.isStill = some "True" →
        Event.select it.id ∈ trackEvents pw items) := by
  have hiff : ∀ it : Clip, it ∈ sortByStart (stillsOf items) ↔
      (it ∈ items ∧ it.isStill = some "True") := by
    intro it
    constructor
    · intro h
      have h2 := (List.perm_insertionSort startLE (stillsOf items)).mem_iff.mp h
      rw [stillsOf, List.mem_filter] at h2
      exact ⟨h2.1, by simpa using h2.2⟩
    · intro h
      apply (List.perm_insertionSort startLE (stillsOf items)).mem_iff.mpr
      rw [stillsOf, List.mem_filter]
      exact ⟨h.1, by simpa using h.2⟩
  refine ⟨hiff, ?_, ?_⟩
  · intro x hx
    obtain ⟨p, hp, hep⟩ := mem_trackEvents hx
    have hmem := adjPairs_mem hp
    rcases mem_pairEvents hep with h | h | h | h | h | h | h | h | h | h
    · exact absurd h (by simp)
    · exact absurd h (by simp)
    · exact absurd h (by simp)
    · have h1 := (hiff p.1).mp hmem.1
      exact ⟨p.1, h1.1, h1.2, (Event.select.injEq _ _).mp h.symm⟩
    · have h1 := (hiff p.2).mp hmem.2
      exact ⟨p.2, h1.1, h1.2, (Event.select.injEq _ _).mp h.symm⟩
    · exact absurd h (by simp)
    · exact absurd h (by simp)
    · exact absurd h (by simp)
    · exact absurd h (by simp)
    · exact absurd h (by simp)
  · intro h2 it hit hstill
    have hmem : it ∈ sortByStart (stillsOf items) := (hiff it).mpr ⟨hit, hstill⟩
    have hlen : 2 ≤ (sortByStart (stillsOf items)).length := by
      rw [length_sortByStart]; exact h2
    obtain ⟨p, hp, hor⟩ := adjPairs_cover hlen hmem
    rw [trackEvents, if_neg (by omega)]
    refine List.mem_flatMap.mpr ⟨p, hp, ?_⟩
    rcases hor with h | h <;> rw [← h] <;> simp [pairEvents]

/-- Witness for C5: on a macOS track mixing stills, a motion clip and
an unmarked clip, the still `cA` is in the sorted list, every selected
id belongs to a still, and `cA` does get selected. -/
theorem claim5_still_filter_witness :
    (cA ∈ sortByStart (stillsOf [cB, cM, cA, cN]) ↔
      (cA ∈ [cB, cM, cA, cN] ∧ cA.isStill = some "True")) ∧
    (∃ it : Clip, it ∈ [cB, cM, cA, cN] ∧ it.isStill = some "True" ∧
      it.id = 1) ∧
    Event.select cA.id ∈ trackEvents "darwin" [cB, cM, cA, cN] :=
  ⟨(claim5_still_filter "darwin" [cB, cM, cA, cN]).1 cA,
   (claim5_still_filter "darwin" [cB, cM, cA, cN]).2.1 1 (by decide),
   (claim5_still_filter "darwin" [cB, cM, cA, cN]).2.2 (by decide) cA
     (by decide) (by decide)⟩

/-- Claim C6: every keyboard shortcut a run emits is the
platform-specific one — the pressed keys of the whole trace are
exactly one `Ctrl`,`T` pair per emission when `sys.platform` starts
with `"win"`, and one `Cmd`,`T` pair per emission on every other
platform. -/
theorem claim6_platform_shortcut (env : Env) :
    keysPressed (main env).fst =
      (List.replicate (countReleases (main env).fst)
        (if strStartsWith env.platform "win" then ["Ctrl", "T"]
         else ["Cmd", "T"])).flatten := by
  rcases Bool.eq_false_or_eq_true env.projectOpen with hp | hp
  case inr => rw [main_noProject hp]; rfl
  rcases Bool.eq_false_or_eq_true env.timelineOpen with ht | ht
  case inr => rw [main_noTimeline hp ht]; rfl
  have hsettingsK : keysPressed (settingsEvents env) = [] :=
    keysPressed_settings env
  have hsettingsR : countReleases (settingsEvents env) = 0 :=
    countP_settingsEvents_eq_zero env isRelease (fun _ => rfl) rfl
  rcases Bool.eq_false_or_eq_true env.hostBindsBmd with hb | hb
  case inr =>
    rw [main_noBmd hp ht hb]
    rw [show ((settingsEvents env, Outcome.nameError "bmd").fst
        = settingsEvents env) from rfl, hsettingsK, hsettingsR]
    rfl
  by_cases hn : env.trackCount = 0
  · rw [main_noTracks hp ht hb hn]
    rw [show ((settingsEvents env ++ [Event.print msgNoTracks],
        Outcome.ok).fst = settingsEvents env ++ [Event.print msgNoTracks])
      from rfl]
    rw [keysPressed, List.filterMap_append, countReleases, List.countP_append]
    rw [keysPressed] at hsettingsK
    rw [countReleases] at hsettingsR
    rw [hsettingsK, hsettingsR]
    rfl
  · rw [main_pos hp ht hb hn]
    rw [show ((settingsEvents env
        ++ ((trackIdxs env.trackCount).flatMap fun i =>
              trackEvents env.platform (env.tracks i))
        ++ [Event.clearClipSelections]
        ++ [Event.print (if totalTransitions env = 0 then msgNoneAdded
              else msgSummary (totalTransitions env) (2 * totalTransitions env))],
        Outcome.ok).fst
      = settingsEvents env
        ++ ((trackIdxs env.trackCount).flatMap fun i =>
              trackEvents env.platform (env.tracks i))
        ++ [Event.clearClipSelections]
        ++ [Event.print (if totalTransitions env = 0 then msgNoneAdded
              else msgSummary (totalTransitions env) (2 * totalTransitions env))])
      from rfl]
    rw [keysPressed, List.filterMap_append, List.filterMap_append,
      List.filterMap_append, countReleases, List.countP_append,
      List.countP_append, List.countP_append]
    rw [keysPressed] at hsettingsK
    rw [countReleases] at hsettingsR
    rw [hsettingsK, hsettingsR]
    have hbK := keysPressed_body env.platform env.tracks (trackIdxs env.trackCount)
    have hbR := countReleases_body env.platform env.tracks (trackIdxs env.trackCount)
    rw [keysPressed] at hbK
    rw [countReleases] at hbR
    rw [hbK, hbR]
    simp [List.countP_cons, List.countP_nil, isRelease]

/-- Claim C7: `ui_keystroke` presses the given keys in order, then
releases all keys, then sleeps for the fixed `DEFAULT_UI_TIMEOUT`
(0.15 s) before returning; consequently in every run each emitted
release is immediately followed by that sleep in the trace. -/
theorem claim7_keystroke_sleep :
    (∀ keys : List String,
      ui_keystroke keys
        = keys.map Event.keyPress
            ++ [Event.keyReleaseAll, Event.sleep DEFAULT_UI_TIMEOUT]) ∧
    DEFAULT_UI_TIMEOUT = 15 / 100 ∧
    ∀ (env : Env) (i : Nat),
      (main env).fst.get? i = some Event.keyReleaseAll →
      (main env).fst.get? (i + 1) = some (Event.sleep DEFAULT_UI_TIMEOUT) :=
  ⟨fun _ => rfl,
   by apply Rat.ext <;> norm_num [DEFAULT_UI_TIMEOUT],
   fun env _ h => QW_get? (QW_main env) h⟩

/-- Witness for C7: the concrete macOS run `env0` emits its release at
index 8, and index 9 indeed holds the fixed sleep. -/
theorem claim7_keystroke_sleep_witness :
    ui_keystroke ["Cmd", "T"]
      = [Event.keyPress "Cmd", Event.keyPress "T", Event.keyReleaseAll,
         Event.sleep DEFAULT_UI_TIMEOUT] ∧
    (main env0).fst.get? 9 = some (Event.sleep DEFAULT_UI_TIMEOUT) :=
  ⟨claim7_keystroke_sleep.1 ["Cmd", "T"],
   claim7_keystroke_sleep.2.2 env0 8 (by decide)⟩

/-- Claim C1 (amended): on every run with an open project, an open
timeline, at least one video track, and the host-injected `bmd`
binding in place, the trace is exactly: the conditional settings step,
then for each video track in index order the adjacent pairs of the
sorted stills, each processed by the block clear-selection, enable
both, select both, emit the platform shortcut, sleep; then one final
selection clearing and one summary print, and the run returns
normally. -/
theorem claim1_main_sequence (env : Env)
    (hp : env.projectOpen = true) (ht : env.timelineOpen = true)
    (hb : env.hostBindsBmd = true) (hn : env.trackCount ≠ 0) :
    ∃ sorted : Nat → List Clip,
      (∀ i ∈ trackIdxs env.trackCount,
        (sorted i).Perm (stillsOf (env.tracks i)) ∧
        List.Sorted startLE (sorted i)) ∧
      (main env).fst =
        settingsEvents env
          ++ ((trackIdxs env.trackCount).flatMap fun i =>
                (adjPairs (sorted i)).flatMap (claimedPairBlock env.platform))
          ++ [Event.clearClipSelections]
          ++ [Event.print (if totalTransitions env = 0 then msgNoneAdded
                else msgSummary (totalTransitions env)
                       (2 * totalTransitions env))] ∧
      (main env).snd = Outcome.ok := by
  have hbody : ∀ i : Nat, trackEvents env.platform (env.tracks i)
      = (adjPairs (sortByStart (stillsOf (env.tracks i)))).flatMap
          (claimedPairBlock env.platform) := by
    intro i
    rw [trackEvents_eq]
    exact congrArg _ (funext fun p => pairEvents_eq_claimedPairBlock _ p)
  refine ⟨fun i => sortByStart (stillsOf (env.tracks i)), ?_, ?_, ?_⟩
  · exact fun i _ => ⟨List.perm_insertionSort _ _, List.sorted_insertionSort _ _⟩
  · rw [main_pos hp ht hb hn]
    simp only [hbody]
  · rw [main_pos hp ht hb hn]

/-- Witness for C1 (amended), at the concrete Windows run `env1`. -/
theorem claim1_main_sequence_witness :
    ∃ sorted : Nat → List Clip,
      (∀ i ∈ trackIdxs env1.trackCount,
        (sorted i).Perm (stillsOf (env1.tracks i)) ∧
        List.Sorted startLE (sorted i)) ∧
      (main env1).fst =
        settingsEvents env1
          ++ ((trackIdxs env1.trackCount).flatMap fun i =>
                (adjPairs (sorted i)).flatMap (claimedPairBlock env1.platform))
          ++ [Event.clearClipSelections]
          ++ [Event.print (if totalTransitions env1 = 0 then msgNoneAdded
                else msgSummary (totalTransitions env1)
                       (2 * totalTransitions env1))] ∧
      (main env1).snd = Outcome.ok :=
  claim1_main_sequence env1 rfl rfl rfl (by decide)

/-- Counterexample to C1 as stated: in the concrete run `env0` the
trace is not of the claimed shape — settings step followed by per-pair
blocks containing only the two selections, the shortcut and the sleep —
because each pair is in fact preceded by a `ClearClipSelections` and
two `SetClipEnabled(True)` host calls, operations that occur in the
actual trace but belong neither to the claimed per-pair block nor to
the settings step. -/
theorem claim1_counterexample :
    (main env0).fst ≠
      settingsEvents env0
        ++ ((trackIdxs env0.trackCount).flatMap fun i =>
              (adjPairs (sortByStart (stillsOf (env0.tracks i)))).flatMap
                (strictPairBlock env0.platform))
        ++ [Event.clearClipSelections]
        ++ [Event.print (msgSummary (totalTransitions env0)
              (2 * totalTransitions env0))] ∧
    Event.setClipEnabled cA.id true ∈ (main env0).fst ∧
    Event.setClipEnabled cA.id true ∉ strictPairBlock env0.platform (cA, cB) ∧
    Event.setClipEnabled cA.id true ∉ settingsEvents env0 := by decide

/-- Claim C2: each known failure condition yields a printed console
message and at most an early return: no open project, no open
timeline and no video tracks each return immediately with one message
and no selection or keystroke; a rejected settings write prints its
warning and continues; zero applied transitions prints the final
warning; and runs in which the host binds `bmd` never end in an
exception. -/
theorem claim2_error_reporting (env : Env) :
    (env.projectOpen = false →
      main env = ([Event.print msgNoProject], Outcome.ok) ∧
      (main env).fst.countP isSelOrKey = 0) ∧
    (env.projectOpen = true → env.timelineOpen = false →
      main env = ([Event.print msgNoTimeline], Outcome.ok) ∧
      (main env).fst.countP isSelOrKey = 0) ∧
    (env.projectOpen = true → env.timelineOpen = true →
      env.hostBindsBmd = true → env.trackCount = 0 →
      main env = (settingsEvents env ++ [Event.print msgNoTracks], Outcome.ok) ∧
      (main env).fst.countP isSelOrKey = 0) ∧
    (env.projectOpen = true → env.timelineOpen = true →
      env.standardVideoTransition ≠ TRANSITION_NAME → env.setSettingOk = false →
      Event.print (msgSetFail env.standardVideoTransition) ∈ (main env).fst) ∧
    (env.projectOpen = true → env.timelineOpen = true →
      env.hostBindsBmd = true → env.trackCount ≠ 0 → totalTransitions env = 0 →
      Event.print msgNoneAdded ∈ (main env).fst) ∧
    (env.hostBindsBmd = true → (main env).snd = Outcome.ok) := by
  refine ⟨?_, ?_, ?_, ?_, ?_, ?_⟩
  · intro hp
    exact ⟨main_noProject hp, by rw [main_noProject hp]; rfl⟩
  · intro hp ht
    exact ⟨main_noTimeline hp ht, by rw [main_noTimeline hp ht]; rfl⟩
  · intro hp ht hb hn
    refine ⟨main_noTracks hp ht hb hn, ?_⟩
    rw [main_noTracks hp ht hb hn]
    show (settingsEvents env ++ [Event.print msgNoTracks]).countP isSelOrKey = 0
    rw [List.countP_append,
      countP_settingsEvents_eq_zero env isSelOrKey (fun _ => rfl) rfl]
    rfl
  · intro hp ht hts hok
    obtain ⟨rest, hr⟩ := main_settings_prefix hp ht
    rw [hr]
    apply List.mem_append_left
    simp [settingsEvents, hts, hok]
  · intro hp ht hb hn h0
    rw [main_pos hp ht hb hn]
    show Event.print msgNoneAdded ∈ _ ++ _ ++ _ ++ _
    simp [h0]
  · intro hb
    rcases Bool.eq_false_or_eq_true env.projectOpen with hp | hp
    case inr => rw [main_noProject hp]
    rcases Bool.eq_false_or_eq_true env.timelineOpen with ht | ht
    case inr => rw [main_noTimeline hp ht]
    by_cases hn : env.trackCount = 0
    · rw [main_noTracks hp ht hb hn]
    · rw [main_pos hp ht hb hn]

/-- Witness for C2: a run without a project prints only the abort
message, a run whose only track holds a single still prints the
zero-transitions warning, and the normal run `env0` returns ok. -/
theorem claim2_error_reporting_witness :
    (main { env0 with projectOpen := false }
        = ([Event.print msgNoProject], Outcome.ok) ∧
      (main { env0 with projectOpen := false }).fst.countP isSelOrKey = 0) ∧
    Event.print msgNoneAdded
      ∈ (main { env0 with tracks := fun _ => [cA] }).fst ∧
    (main env0).snd = Outcome.ok :=
  ⟨(claim2_error_reporting { env0 with projectOpen := false }).1 rfl,
   (claim2_error_reporting { env0 with tracks := fun _ => [cA] }).2.2.2.2.1
     rfl rfl rfl (by decide) (by decide),
   (claim2_error_reporting env0).2.2.2.2.2 rfl⟩

/-- Claim C9: every enabled-flag write in any trace sets the flag to
`True` (the script never disables a clip and writes no other clip
property), and every `Select` in any trace targets a clip whose
enabled flag was written to `True` earlier in the trace. -/
theorem claim9_enable_before_select (env : Env) :
    (∀ x b, Event.setClipEnabled x b ∈ (main env).fst → b = true) ∧
    enabledThenSelect [] (main env).fst = true := by
  constructor
  · intro x b hmem
    rcases Bool.eq_false_or_eq_true env.projectOpen with hp | hp
    case inr => rw [main_noProject hp] at hmem; simp at hmem
    rcases Bool.eq_false_or_eq_true env.timelineOpen with ht | ht
    case inr => rw [main_noTimeline hp ht] at hmem; simp at hmem
    have hsettings : Event.setClipEnabled x b ∉ settingsEvents env := by
      rcases settingsEvents_cases env with h | h | h <;> simp [h]
    rcases Bool.eq_false_or_eq_true env.hostBindsBmd with hb | hb
    case inr =>
      rw [main_noBmd hp ht hb] at hmem
      exact absurd hmem hsettings
    by_cases hn : env.trackCount = 0
    · rw [main_noTracks hp ht hb hn] at hmem
      rw [show ((settingsEvents env ++ [Event.print msgNoTracks],
          Outcome.ok).fst = settingsEvents env ++ [Event.print msgNoTracks])
        from rfl, List.mem_append] at hmem
      rcases hmem with h | h
      · exact absurd h hsettings
      · simp at h
    · rw [main_pos hp ht hb hn] at hmem
      rw [show ∀ l : List Event, ∀ o, ((l, o) : List Event × Outcome).fst = l
        from fun _ _ => rfl] at hmem
      rw [List.mem_append, List.mem_append, List.mem_append] at hmem
      rcases hmem with ((h | h) | h) | h
      · exact absurd h hsettings
      · exact setClipEnabled_mem_body h
      · simp at h
      · simp at h
  · rcases Bool.eq_false_or_eq_true env.projectOpen with hp | hp
    case inr => rw [main_noProject hp]; rfl
    rcases Bool.eq_false_or_eq_true env.timelineOpen with ht | ht
    case inr => rw [main_noTimeline hp ht]; rfl
    rcases Bool.eq_false_or_eq_true env.hostBindsBmd with hb | hb
    case inr =>
      rw [main_noBmd hp ht hb]
      obtain ⟨t, hshift⟩ := etsShifts_settings env []
      have h2 := hshift []
      rw [List.append_nil] at h2
      show enabledThenSelect [] (settingsEvents env) = true
      rw [h2]
      rfl
    by_cases hn : env.trackCount = 0
    · rw [main_noTracks hp ht hb hn]
      obtain ⟨t, hshift⟩ := etsShifts_settings env []
      show enabledThenSelect []
        (settingsEvents env ++ [Event.print msgNoTracks]) = true
      rw [hshift [Event.print msgNoTracks]]
      simp [enabledThenSelect]
    · rw [main_pos hp ht hb hn]
      obtain ⟨t, hshift⟩ := (etsShifts_append (etsShifts_settings env)
        (etsShifts_body env.platform env.tracks (trackIdxs env.trackCount))) []
      show enabledThenSelect []
        ((settingsEvents env
          ++ ((trackIdxs env.trackCount).flatMap fun i =>
                trackEvents env.platform (env.tracks i)))
          ++ [Event.clearClipSelections]
          ++ [Event.print (if totalTransitions env = 0 then msgNoneAdded
                else msgSummary (totalTransitions env)
                       (2 * totalTransitions env))]) = true
    -- reassociate so that the settings-plus-body block is applied first
      rw [List.append_assoc (settingsEvents env
          ++ ((trackIdxs env.trackCount).flatMap fun i =>
                trackEvents env.platform (env.tracks i)))]
      rw [hshift]
      simp [enabledThenSelect]

/-- Witness for C9 at the concrete run `env0`. -/
theorem claim9_enable_before_select_witness :
    true = true ∧ enabledThenSelect [] (main env0).fst = true :=
  ⟨(claim9_enable_before_select env0).1 cA.id true (by decide),
   (claim9_enable_before_select env0).2⟩

/-- Claim C10: on every run that passes all the guards (open project,
open timeline, host-bound `bmd`, at least one video track), replaying
the trace shows that at each keyboard-shortcut emission exactly the
two clips of the current adjacent pair are selected (the selection is
cleared before each pair's selections), the last selection operation
of the trace is a `ClearClipSelections`, and the run ends with no
clips selected. -/
theorem claim10_selection_invariant (env : Env)
    (hp : env.projectOpen = true) (ht : env.timelineOpen = true)
    (hb : env.hostBindsBmd = true) (hn : env.trackCount ≠ 0) :
    selCheck [] (pairsOf env) (main env).fst = true ∧
    ((main env).fst.filter isSelOp).getLast? = some Event.clearClipSelections ∧
    selAfter [] (main env).fst = [] := by
  have hfst : (main env).fst =
      settingsEvents env
        ++ ((trackIdxs env.trackCount).flatMap fun i =>
              trackEvents env.platform (env.tracks i))
        ++ [Event.clearClipSelections]
        ++ [Event.print (if totalTransitions env = 0 then msgNoneAdded
              else msgSummary (totalTransitions env)
                     (2 * totalTransitions env))] := by
    rw [main_pos hp ht hb hn]
  refine ⟨?_, ?_, ?_⟩
  · rw [hfst]
    rw [List.append_assoc (settingsEvents env
        ++ ((trackIdxs env.trackCount).flatMap fun i =>
              trackEvents env.platform (env.tracks i))),
      List.append_assoc (settingsEvents env)]
    rw [selCheck_settings]
    have hps : pairsOf env
        = ((trackIdxs env.trackCount).flatMap fun i =>
            trackPairIds (env.tracks i)) ++ [] := by
      rw [List.append_nil]; rfl
    rw [hps, selCheck_body]
    simp [selCheck]
  · rw [hfst]
    rw [List.filter_append, List.filter_append, List.filter_append]
    rw [show List.filter isSelOp [Event.clearClipSelections]
        = [Event.clearClipSelections] from rfl]
    rw [show List.filter isSelOp
        [Event.print (if totalTransitions env = 0 then msgNoneAdded
          else msgSummary (totalTransitions env) (2 * totalTransitions env))]
        = [] from rfl]
    rw [List.append_nil]
    exact List.getLast?_concat _
  · rw [hfst]
    rw [selAfter_append, selAfter_append, selAfter_append]
    simp [selAfter]

/-- Witness for C10 at the concrete Windows run `env1`. -/
theorem claim10_selection_invariant_witness :
    selCheck [] (pairsOf env1) (main env1).fst = true ∧
    ((main env1).fst.filter isSelOp).getLast? = some Event.clearClipSelections ∧
    selAfter [] (main env1).fst = [] :=
  claim10_selection_invariant env1 rfl rfl rfl (by decide)

end DVR
